import Mathlib

/-!
Shallow embedding of `src/backend/server.py` (JustP2P Messenger API).

Persistent state is modelled explicitly: the `users` and `backups` MongoDB
collections become Lean lists of records, and each endpoint becomes a pure
function from the collection(s) and its request parameters to the updated
collection(s) and a response or an `HTTPException`.

External primitives that the server only calls once per request are passed in
as parameters, mirroring the spec's "out of scope" list:
  * `bcrypt` password hashing        → a `hashPw : String → String` parameter;
  * `pyotp` TOTP code generation     → a `totp : String → Nat → String`
    parameter giving the one-time password for a secret at a time step
    (`pyotp.TOTP(secret).verify(code)` with its default `valid_window = 0`
    compares `code` against the password of the current step only);
  * JWT signing (`jwt.encode`)       → a `sign : JwtPayload → String` parameter;
  * Fernet symmetric encryption      → a `Cipher` record of byte functions;
  * `uuid.uuid4()` / random secrets  → fresh-id / secret / backup-code
    parameters.
`base64.b64encode` / `b64decode` are deterministic, so they are implemented
concretely (strict RFC 4648 encoding over byte lists; the decoder models the
behaviour on well-formed inputs, which is the only way the server ever feeds
data it produced itself back into it).

Timestamps (`datetime.now(timezone.utc)`, `datetime.utcnow()`) are modelled as
`Nat` seconds, and TOTP time steps as `Nat` step counters.
-/

/-- `fastapi.HTTPException`: an HTTP status code plus a human-readable detail
string. -/
structure HTTPException where
  status_code : Nat
  detail : String
deriving Repr, DecidableEq

/-- The `User` pydantic model (server.py lines 57-69).  `passkey_credentials`
holds opaque records never inspected by any endpoint, so its entries are left
opaque strings. -/
structure User where
  id : String
  email : String
  username : String
  password_hash : String
  current_peer_id : Option String := none
  online_status : Bool := false
  totp_secret : Option String := none
  totp_enabled : Bool := false
  backup_codes : List String := []
  passkey_credentials : List String := []
  created_at : Nat := 0
deriving Repr, DecidableEq

/-- The `BackupMetadata` pydantic model (server.py lines 95-103). -/
structure BackupMetadata where
  id : String
  user_id : String
  filename : String
  provider : String
  encrypted_data : Option String := none
  cloud_file_id : Option String := none
  created_at : Nat := 0
deriving Repr, DecidableEq

/-- `db.<coll>.update_one(filter, {"$set": ...})`: applies `f` to the first
record matching `p`, leaving the rest of the collection unchanged. -/
def updateFirst {α : Type} (p : α → Bool) (f : α → α) : List α → List α
  | [] => []
  | x :: rest => if p x then f x :: rest else x :: updateFirst p f rest

/-- `db.<coll>.delete_one(filter)`: removes the first record matching `p` and
reports the deleted count (0 or 1). -/
def deleteOne {α : Type} (p : α → Bool) : List α → List α × Nat
  | [] => ([], 0)
  | x :: rest =>
    if p x then (rest, 1)
    else
      let r := deleteOne p rest
      (x :: r.1, r.2)

/-! ## Base64 (`base64.b64encode` / `base64.b64decode`)

Bytes are `Nat`s below 256; the encoder packs them into 6-bit groups, maps the
groups through the standard alphabet and pads with `'='` to a multiple of four
characters.  The decoder checks the overall length, strips the padding, maps
characters back through the alphabet and rejects a leftover length that no
byte string can produce. -/

def b64Alphabet : List Char :=
  ['A','B','C','D','E','F','G','H','I','J','K','L','M',
   'N','O','P','Q','R','S','T','U','V','W','X','Y','Z',
   'a','b','c','d','e','f','g','h','i','j','k','l','m',
   'n','o','p','q','r','s','t','u','v','w','x','y','z',
   '0','1','2','3','4','5','6','7','8','9','+','/']

def b64Char (n : Nat) : Char := b64Alphabet.getD n '='

def b64CharIndex (c : Char) : Option Nat := b64Alphabet.indexOf? c

/-- Pack a byte list into 6-bit groups (most significant bits first). -/
def bytesToSextets : List Nat → List Nat
  | [] => []
  | [a] => [a / 4, a % 4 * 16]
  | [a, b] => [a / 4, a % 4 * 16 + b / 16, b % 16 * 4]
  | a :: b :: c :: rest =>
    a / 4 :: (a % 4 * 16 + b / 16) :: (b % 16 * 4 + c / 64) :: c % 64 ::
      bytesToSextets rest

/-- Unpack 6-bit groups back into bytes, dropping the partial-byte filler bits
of a trailing group of two or three sextets. -/
def sextetsToBytes : List Nat → List Nat
  | [] => []
  | [_] => []
  | [w, x] => [w * 4 + x / 16]
  | [w, x, y] => [w * 4 + x / 16, x % 16 * 16 + y / 4]
  | w :: x :: y :: z :: rest =>
    (w * 4 + x / 16) :: (x % 16 * 16 + y / 4) :: (y % 4 * 64 + z) ::
      sextetsToBytes rest

def b64encode (bs : List Nat) : String :=
  String.mk ((bytesToSextets bs).map b64Char ++
    List.replicate ((4 - (bytesToSextets bs).length % 4) % 4) '=')

/-- Map every character back through the alphabet, failing on any character
outside it. -/
def b64DecodeDigits : List Char → Option (List Nat)
  | [] => some []
  | c :: rest =>
    match b64CharIndex c, b64DecodeDigits rest with
    | some v, some vs => some (v :: vs)
    | _, _ => none

def b64decode (s : String) : Option (List Nat) :=
  if s.data.length % 4 ≠ 0 then none
  else
    match b64DecodeDigits (s.data.takeWhile (fun c => c ≠ '=')) with
    | none => none
    | some sx => if sx.length % 4 = 1 then none else some (sextetsToBytes sx)

/-- `cryptography.fernet.Fernet` with the process-wide key: an external
authenticated symmetric cipher, modelled as a pair of byte-list functions. -/
structure Cipher where
  enc : List Nat → List Nat
  dec : List Nat → List Nat

/-! ## Session issuer (`create_access_token` / `decode_token`) -/

/-- The JWT claim set built by `create_access_token`. -/
structure JwtPayload where
  user_id : String
  email : String
  exp : Nat
deriving Repr, DecidableEq

/-- A signed token: the claim set plus the HMAC signature the issuer computed
over it. -/
structure Jwt where
  payload : JwtPayload
  sig : String
deriving Repr, DecidableEq

/-- `create_access_token(user_id, email)` (server.py lines 114-120): claims are
the user id, the email and an expiry seven days from now; the token carries the
signature of those claims under the process-wide secret (the signing function
`sign` stands for `jwt.encode`'s HMAC with `JWT_SECRET`). -/
def create_access_token (sign : JwtPayload → String) (user_id email : String)
    (now : Nat) : Jwt :=
  let payload : JwtPayload := ⟨user_id, email, now + 7 * 24 * 60 * 60⟩
  ⟨payload, sign payload⟩

/-- `decode_token` (server.py lines 122-128): `jwt.decode` first verifies the
signature (failure → `InvalidTokenError` → 401 "Invalid token"), then validates
the `exp` claim (an expiry not in the future → `ExpiredSignatureError` → 401
"Token expired"); otherwise the claim set is returned. -/
def decode_token (sign : JwtPayload → String) (now : Nat) (t : Jwt) :
    Except HTTPException JwtPayload :=
  if t.sig ≠ sign t.payload then .error ⟨401, "Invalid token"⟩
  else if t.payload.exp ≤ now then .error ⟨401, "Token expired"⟩
  else .ok t.payload

/-! ## Auth endpoints -/

/-- `register` (server.py lines 144-175).  `newId` stands for the fresh
`uuid4`, `now` for the creation timestamp, `hashPw` for
`bcrypt.hashpw(·, gensalt())`.  Fails when any stored user already has the
requested email or username; otherwise inserts the new user and returns it. -/
def register (hashPw : String → String) (users : List User)
    (email password username newId : String) (now : Nat) :
    Except HTTPException (List User × User) :=
  if users.any (fun u => u.email == email || u.username == username) then
    .error ⟨400, "Email or username already exists"⟩
  else
    let user : User :=
      { id := newId, email := email, username := username,
        password_hash := hashPw password, created_at := now }
    .ok (users ++ [user], user)

/-! ## 2FA endpoints -/

/-- `setup_2fa` (server.py lines 211-244): stores the freshly generated secret
and backup codes on the caller (leaving `totp_enabled` untouched) and returns
them.  `secret` stands for `pyotp.random_base32()` and `codes` for
`generate_backup_codes()` (8 fresh codes). -/
def setup_2fa (users : List User) (uid secret : String) (codes : List String) :
    List User × (String × List String) :=
  (updateFirst (fun u => u.id == uid)
      (fun u => { u with totp_secret := some secret, backup_codes := codes })
      users,
   (secret, codes))

/-- The Python truthiness test `not user.get("totp_secret")`: `None` and the
empty string are both falsy. -/
def totpSecretMissing (u : User) : Bool :=
  match u.totp_secret with
  | none => true
  | some s => s == ""

/-- `verify_2fa` (server.py lines 246-273).  The caller is re-read from the
collection; with no (or an empty) stored secret the request fails with 400
"2FA not setup".  `pyotp.TOTP(secret).verify(code)` with its default
`valid_window = 0` succeeds exactly when `code` equals the one-time password of
the current time step `tstep`; then `totp_enabled` is set.  Otherwise a code
present among the stored backup codes is consumed (every copy of it filtered
out) and `totp_enabled` is set.  Otherwise 400 "Invalid code".  The returned
list is the collection after the request: the failure paths never write. -/
def verify_2fa (totp : String → Nat → String) (users : List User)
    (uid code : String) (tstep : Nat) :
    List User × Except HTTPException String :=
  match users.find? (fun u => u.id == uid) with
  | none => (users, .error ⟨500, "Internal Server Error"⟩)
  | some user =>
    if totpSecretMissing user then
      (users, .error ⟨400, "2FA not setup"⟩)
    else if code == totp (user.totp_secret.getD "") tstep then
      (updateFirst (fun u => u.id == uid)
          (fun u => { u with totp_enabled := true }) users,
       .ok "2FA enabled successfully")
    else if user.backup_codes.contains code then
      (updateFirst (fun u => u.id == uid)
          (fun u =>
            { u with
              backup_codes := u.backup_codes.filter (fun c => c != code),
              totp_enabled := true }) users,
       .ok "2FA verified with backup code")
    else
      (users, .error ⟨400, "Invalid code"⟩)

/-- `disable_2fa` (server.py lines 275-281): unconditionally clears the
caller's secret and backup codes and turns the flag off. -/
def disable_2fa (users : List User) (uid : String) : List User × String :=
  (updateFirst (fun u => u.id == uid)
      (fun u =>
        { u with totp_enabled := false, totp_secret := none,
                 backup_codes := [] }) users,
   "2FA disabled")

/-! ## User/peer endpoints -/

/-- `update_peer_id` (server.py lines 298-304): records the caller's peer id
and marks the caller online. -/
def update_peer_id (users : List User) (uid peer_id : String) :
    List User × String :=
  (updateFirst (fun u => u.id == uid)
      (fun u => { u with current_peer_id := some peer_id,
                         online_status := true }) users,
   peer_id)

/-- `set_offline` (server.py lines 306-312): marks the caller offline. -/
def set_offline (users : List User) (uid : String) : List User :=
  updateFirst (fun u => u.id == uid)
    (fun u => { u with online_status := false }) users

/-! ## Backup endpoints -/

/-- `upload_backup` (server.py lines 322-348).  The base64 payload is decoded
(a failure surfaces as 400 "Encryption failed"), encrypted with the
process-wide cipher, and stored: for provider "local" the ciphertext is kept
inline, base64-encoded, on the metadata record; for any other provider no
inline payload is kept.  `newId` stands for the fresh `uuid4`. -/
def upload_backup (fernet : Cipher) (backups : List BackupMetadata)
    (uid filename dataB64 provider newId : String) (now : Nat) :
    Except HTTPException (List BackupMetadata × String) :=
  match b64decode dataB64 with
  | none => .error ⟨400, "Encryption failed"⟩
  | some data =>
    let encrypted_data := fernet.enc data
    let metadata : BackupMetadata :=
      { id := newId, user_id := uid, filename := filename,
        provider := provider,
        encrypted_data :=
          if provider == "local" then some (b64encode encrypted_data)
          else none,
        created_at := now }
    .ok (backups ++ [metadata], metadata.id)

/-- The `{"_id": 0, "encrypted_data": 0}` projection of `list_backups`: the
inline payload is stripped from the returned record. -/
def stripPayload (b : BackupMetadata) : BackupMetadata :=
  { b with encrypted_data := none }

/-- `list_backups` (server.py lines 350-357): the caller's records, projected
without `encrypted_data`, sorted by creation time descending
(`.sort("created_at", -1)`, a stable sort), truncated by `.to_list(100)`. -/
def list_backups (backups : List BackupMetadata) (uid : String) :
    List BackupMetadata :=
  ((((backups.filter (fun b => b.user_id == uid)).map stripPayload).mergeSort
      (fun a b => b.created_at ≤ a.created_at)).take 100)

/-- The response of a successful download. -/
structure DownloadResponse where
  filename : String
  data : String
  created_at : Nat
deriving Repr, DecidableEq

/-- `download_backup` (server.py lines 359-377): looks the record up by backup
id AND owner; a missing record is 404, a non-"local" provider or an absent (or
empty, by Python truthiness) inline payload is 400, and a failure inside the
decode-and-decrypt block is 500; otherwise the decrypted bytes are returned
base64-encoded with the stored filename and timestamp. -/
def download_backup (fernet : Cipher) (backups : List BackupMetadata)
    (uid backup_id : String) : Except HTTPException DownloadResponse :=
  match backups.find? (fun b => b.id == backup_id && b.user_id == uid) with
  | none => .error ⟨404, "Backup not found"⟩
  | some backup =>
    if backup.provider != "local" || backup.encrypted_data.getD "" == "" then
      .error ⟨400, "Only local backups can be downloaded via API"⟩
    else
      match b64decode (backup.encrypted_data.getD "") with
      | none => .error ⟨500, "Decryption failed"⟩
      | some encrypted_data =>
        .ok ⟨backup.filename, b64encode (fernet.dec encrypted_data),
             backup.created_at⟩

/-- `delete_backup` (server.py lines 379-384): `delete_one` by backup id AND
owner; a deleted count of zero is 404, otherwise success. -/
def delete_backup (backups : List BackupMetadata) (uid backup_id : String) :
    Except HTTPException (List BackupMetadata × String) :=
  let result := deleteOne (fun b => b.id == backup_id && b.user_id == uid)
    backups
  if result.2 = 0 then .error ⟨404, "Backup not found"⟩
  else .ok (result.1, "Backup deleted")

/-! ## Concrete sample values, used to instantiate the external primitives and
to exercise the endpoint functions on closed inputs. -/

/-- A concrete stand-in for `jwt.encode`'s HMAC signature. -/
def demoSign : JwtPayload → String :=
  fun p => p.user_id ++ "|" ++ p.email ++ "|" ++ toString p.exp

/-- A concrete stand-in for the TOTP code of a secret at a time step; distinct
time steps give distinct codes, as for the real primitive. -/
def demoTotp : String → Nat → String := fun s t => s ++ "#" ++ toString t

/-- A concrete invertible stand-in for the Fernet cipher. -/
def demoCipher : Cipher := ⟨fun bs => bs ++ [7], fun bs => bs.dropLast⟩

def demoUser : User :=
  { id := "u1", email := "a@b.c", username := "alice", password_hash := "hp" }

def defaultUser : User :=
  { id := "", email := "", username := "", password_hash := "" }

/-- A user who completed 2FA setup: secret and backup codes on file. -/
def demoUser2FA : User :=
  { id := "u1", email := "a@b.c", username := "alice", password_hash := "hp",
    totp_secret := some "SECRETBASE32", totp_enabled := true,
    backup_codes := ["AAAA1111", "BBBB2222"] }

/-- Two backups with distinct owners. -/
def demoBackups : List BackupMetadata :=
  [{ id := "b1", user_id := "u1", filename := "f1", provider := "local",
     encrypted_data := some "Y2lwaGVy", created_at := 1 },
   { id := "b2", user_id := "u2", filename := "f2", provider := "local",
     encrypted_data := some "Y2lwaGVy", created_at := 2 }]

/-- A collection holding 101 backups, all owned by `"u1"`. -/
def db101 : List BackupMetadata :=
  (List.range 101).map
    (fun i => { id := toString i, user_id := "u1", filename := "f",
                provider := "local", created_at := i })

/-! ## Collection-operation lemmas -/

theorem updateFirst_length {α : Type} (p : α → Bool) (f : α → α) :
    ∀ l : List α, (updateFirst p f l).length = l.length
  | [] => rfl
  | x :: rest => by
    by_cases hp : p x <;>
      simp [updateFirst, hp, updateFirst_length p f rest]

/-- `update_one` on the first record matching `p`, with `f` preserving `p`:
re-reading with `find?` sees the updated record. -/
theorem find?_updateFirst {α : Type} (p : α → Bool) (f : α → α)
    (hf : ∀ x, p (f x) = p x) :
    ∀ (l : List α) (x : α), l.find? p = some x →
      (updateFirst p f l).find? p = some (f x)
  | [], x => by simp
  | y :: rest, x => by
    by_cases hp : p y
    · simp [updateFirst, hp, List.find?_cons, hf]
      intro h
      exact congrArg f h
    · simp [updateFirst, hp, List.find?_cons]
      exact find?_updateFirst p f hf rest x

/-- Positionally, `update_one` either leaves a record alone or applies `f` to
a record matching `p`. -/
theorem updateFirst_getD {α : Type} (p : α → Bool) (f : α → α) (d : α) :
    ∀ (l : List α) (i : Nat),
      (updateFirst p f l).getD i d = l.getD i d ∨
      ((updateFirst p f l).getD i d = f (l.getD i d) ∧
        p (l.getD i d) = true)
  | [], i => by simp [updateFirst]
  | x :: rest, i => by
    by_cases hp : p x
    · cases i with
      | zero => exact Or.inr ⟨by simp [updateFirst, hp], by simpa using hp⟩
      | succ n => exact Or.inl (by simp [updateFirst, hp])
    · cases i with
      | zero => exact Or.inl (by simp [updateFirst, hp])
      | succ n => simpa [updateFirst, hp] using updateFirst_getD p f d rest n

/-- `delete_one` with no matching record deletes nothing. -/
theorem deleteOne_of_not_exists {α : Type} (p : α → Bool) :
    ∀ l : List α, (∀ x ∈ l, p x = false) → deleteOne p l = (l, 0)
  | [], _ => rfl
  | x :: rest, h => by
    have hx : p x = false := h x (by simp)
    have hrest := deleteOne_of_not_exists p rest (fun y hy => h y (by simp [hy]))
    simp [deleteOne, hx, hrest]

/-- `delete_one` with a matching record present removes exactly one match and
exactly one record. -/
theorem deleteOne_of_exists {α : Type} (p : α → Bool) :
    ∀ l : List α, (∃ x ∈ l, p x = true) →
      (deleteOne p l).2 = 1 ∧
      (deleteOne p l).1.length + 1 = l.length ∧
      (deleteOne p l).1.countP p + 1 = l.countP p
  | [], h => by simp at h
  | x :: rest, h => by
    by_cases hp : p x
    · refine ⟨by simp [deleteOne, hp], by simp [deleteOne, hp], ?_⟩
      simp [deleteOne, hp, List.countP_cons]
    · obtain ⟨y, hy, hpy⟩ := h
      rcases List.mem_cons.mp hy with rfl | hy'
      · exact absurd hpy (by simp [hp])
      · obtain ⟨h1, h2, h3⟩ := deleteOne_of_exists p rest ⟨y, hy', hpy⟩
        refine ⟨by simp [deleteOne, hp, h1], ?_, ?_⟩
        · simp [deleteOne, hp]
          omega
        · simp [deleteOne, hp, List.countP_cons, h3]

/-! ## C8: delete semantics -/

/-- C8: `delete_backup` fails with 404 "Backup not found" — in particular not
with a 401 — whenever no backup with that id owned by the caller exists
(including when a backup with that id exists but belongs to a different user,
since the delete filter requires both the id and the owner), and when a
matching owned record exists the call succeeds and removes exactly one record,
removing one match of the (id, owner) filter. -/
theorem C8_delete_backup (backups : List BackupMetadata) (uid bid : String) :
    ((¬ ∃ b ∈ backups, b.id = bid ∧ b.user_id = uid) →
      delete_backup backups uid bid = .error ⟨404, "Backup not found"⟩) ∧
    ((∃ b ∈ backups, b.id = bid ∧ b.user_id = uid) →
      ∃ backups',
        delete_backup backups uid bid = .ok (backups', "Backup deleted") ∧
        backups'.length + 1 = backups.length ∧
        backups'.countP (fun b => b.id == bid && b.user_id == uid) + 1 =
          backups.countP (fun b => b.id == bid && b.user_id == uid)) := by
  constructor
  · intro hno
    have hall : ∀ b ∈ backups, (b.id == bid && b.user_id == uid) = false := by
      intro b hb
      cases hbool : (b.id == bid && b.user_id == uid) with
      | false => rfl
      | true =>
        exact absurd
          ⟨b, hb, by simpa [Bool.and_eq_true, beq_iff_eq] using hbool⟩ hno
    simp [delete_backup, deleteOne_of_not_exists _ _ hall]
  · intro hyes
    obtain ⟨b, hb, hid, hown⟩ := hyes
    obtain ⟨h1, h2, h3⟩ :=
      deleteOne_of_exists (fun b => b.id == bid && b.user_id == uid) backups
        ⟨b, hb, by simp [Bool.and_eq_true, beq_iff_eq, hid, hown]⟩
    exact ⟨_, by simp [delete_backup, h1], h2, h3⟩

theorem C8_delete_backup_witness :
    delete_backup demoBackups "u1" "b2" = .error ⟨404, "Backup not found"⟩ ∧
    ∃ backups',
      delete_backup demoBackups "u1" "b1" = .ok (backups', "Backup deleted") ∧
      backups'.length + 1 = demoBackups.length ∧
      backups'.countP (fun b => b.id == "b1" && b.user_id == "u1") + 1 =
        demoBackups.countP (fun b => b.id == "b1" && b.user_id == "u1") :=
  ⟨(C8_delete_backup demoBackups "u1" "b2").1 (by decide),
   (C8_delete_backup demoBackups "u1" "b1").2 (by decide)⟩

/-! ## C9: disable is unconditional and clears everything -/

/-- C9: `disable_2fa` succeeds unconditionally — for a caller in any 2FA
state — and afterwards the caller's record has no TOTP secret, an empty
backup-code set, and `totp_enabled = false`. -/
theorem C9_disable_2fa (users : List User) (uid : String) (u : User)
    (hu : users.find? (fun v => v.id == uid) = some u) :
    (disable_2fa users uid).2 = "2FA disabled" ∧
    ∃ u', (disable_2fa users uid).1.find? (fun v => v.id == uid) = some u' ∧
      u'.totp_secret = none ∧ u'.backup_codes = [] ∧
      u'.totp_enabled = false :=
  ⟨rfl,
   ⟨{ u with totp_enabled := false, totp_secret := none, backup_codes := [] },
    find?_updateFirst (fun v => v.id == uid)
      (fun u => { u with totp_enabled := false, totp_secret := none,
                         backup_codes := [] })
      (fun _ => rfl) users u hu,
    rfl, rfl, rfl⟩⟩

theorem C9_disable_2fa_witness :
    (disable_2fa [demoUser2FA] "u1").2 = "2FA disabled" ∧
    ∃ u',
      (disable_2fa [demoUser2FA] "u1").1.find? (fun v => v.id == "u1") =
        some u' ∧
      u'.totp_secret = none ∧ u'.backup_codes = [] ∧
      u'.totp_enabled = false :=
  C9_disable_2fa [demoUser2FA] "u1" demoUser2FA (by decide)

/-! ## C10: frame of the presence operations -/

/-- C10: `update_peer_id` modifies only the caller's `current_peer_id` and
`online_status`; `set_offline` modifies only the caller's `online_status`.
Every other field of the record at any position of the collection is
unchanged, and a record whose id is not the caller's is unchanged entirely. -/
theorem C10_presence_frame (users : List User) (uid peer_id : String)
    (i : Nat) :
    ((update_peer_id users uid peer_id).1.length = users.length ∧
     (set_offline users uid).length = users.length) ∧
    (((update_peer_id users uid peer_id).1.getD i defaultUser).id =
        (users.getD i defaultUser).id ∧
     ((update_peer_id users uid peer_id).1.getD i defaultUser).email =
        (users.getD i defaultUser).email ∧
     ((update_peer_id users uid peer_id).1.getD i defaultUser).username =
        (users.getD i defaultUser).username ∧
     ((update_peer_id users uid peer_id).1.getD i defaultUser).password_hash =
        (users.getD i defaultUser).password_hash ∧
     ((update_peer_id users uid peer_id).1.getD i defaultUser).totp_secret =
        (users.getD i defaultUser).totp_secret ∧
     ((update_peer_id users uid peer_id).1.getD i defaultUser).totp_enabled =
        (users.getD i defaultUser).totp_enabled ∧
     ((update_peer_id users uid peer_id).1.getD i defaultUser).backup_codes =
        (users.getD i defaultUser).backup_codes ∧
     ((update_peer_id users uid peer_id).1.getD i
          defaultUser).passkey_credentials =
        (users.getD i defaultUser).passkey_credentials ∧
     ((update_peer_id users uid peer_id).1.getD i defaultUser).created_at =
        (users.getD i defaultUser).created_at) ∧
    (((set_offline users uid).getD i defaultUser).id =
        (users.getD i defaultUser).id ∧
     ((set_offline users uid).getD i defaultUser).email =
        (users.getD i defaultUser).email ∧
     ((set_offline users uid).getD i defaultUser).username =
        (users.getD i defaultUser).username ∧
     ((set_offline users uid).getD i defaultUser).password_hash =
        (users.getD i defaultUser).password_hash ∧
     ((set_offline users uid).getD i defaultUser).current_peer_id =
        (users.getD i defaultUser).current_peer_id ∧
     ((set_offline users uid).getD i defaultUser).totp_secret =
        (users.getD i defaultUser).totp_secret ∧
     ((set_offline users uid).getD i defaultUser).totp_enabled =
        (users.getD i defaultUser).totp_enabled ∧
     ((set_offline users uid).getD i defaultUser).backup_codes =
        (users.getD i defaultUser).backup_codes ∧
     ((set_offline users uid).getD i defaultUser).passkey_credentials =
        (users.getD i defaultUser).passkey_credentials ∧
     ((set_offline users uid).getD i defaultUser).created_at =
        (users.getD i defaultUser).created_at) ∧
    ((users.getD i defaultUser).id ≠ uid →
      (update_peer_id users uid peer_id).1.getD i defaultUser =
        users.getD i defaultUser ∧
      (set_offline users uid).getD i defaultUser =
        users.getD i defaultUser) := by
  have e1 : (update_peer_id users uid peer_id).1 =
      updateFirst (fun u => u.id == uid)
        (fun u => { u with current_peer_id := some peer_id,
                           online_status := true }) users := rfl
  have e2 : set_offline users uid =
      updateFirst (fun u => u.id == uid)
        (fun u => { u with online_status := false }) users := rfl
  have h1 := updateFirst_getD (fun u => u.id == uid)
    (fun u => { u with current_peer_id := some peer_id,
                       online_status := true }) defaultUser users i
  have h2 := updateFirst_getD (fun u => u.id == uid)
    (fun u => { u with online_status := false }) defaultUser users i
  refine ⟨⟨by rw [e1]; exact updateFirst_length _ _ users,
           by rw [e2]; exact updateFirst_length _ _ users⟩, ?_, ?_, ?_⟩
  · rw [e1]
    rcases h1 with h | ⟨h, _⟩ <;> rw [h] <;> simp
  · rw [e2]
    rcases h2 with h | ⟨h, _⟩ <;> rw [h] <;> simp
  · intro hne
    rw [e1, e2]
    constructor
    · rcases h1 with h | ⟨h, hp⟩
      · exact h
      · exact absurd (by simpa using hp) hne
    · rcases h2 with h | ⟨h, hp⟩
      · exact h
      · exact absurd (by simpa using hp) hne

theorem C10_presence_frame_witness :
    ((set_offline [demoUser2FA] "u1").getD 0 defaultUser).totp_secret =
      ([demoUser2FA].getD 0 defaultUser).totp_secret ∧
    ((update_peer_id [demoUser2FA] "u1" "peerX").1.getD 0
        defaultUser).email =
      ([demoUser2FA].getD 0 defaultUser).email :=
  ⟨(C10_presence_frame [demoUser2FA] "u1" "peerX" 0).2.2.1.2.2.2.2.2.1,
   (C10_presence_frame [demoUser2FA] "u1" "peerX" 0).2.1.2.1⟩

/-! ## C1: TOTP verification window -/

/-- C1 counterexample: the claim says `verify` accepts a code matching the
one-time-password algorithm at an adjacent time step (one step of clock
drift).  The server calls `pyotp.TOTP(secret).verify(code)` with its default
`valid_window = 0`, so a code valid at step 6 is rejected at step 5 — with
a user whose stored secret is on file, whose backup codes do not contain the
code, and with the state left unchanged. -/
theorem C1_counterexample :
    demoTotp "SECRETBASE32" (5 + 1) = "SECRETBASE32#6" ∧
    (verify_2fa demoTotp [demoUser2FA] "u1" "SECRETBASE32#6" 5).2 =
      .error ⟨400, "Invalid code"⟩ ∧
    (verify_2fa demoTotp [demoUser2FA] "u1" "SECRETBASE32#6" 5).1 =
      [demoUser2FA] := by
  refine ⟨rfl, rfl, rfl⟩

/-- C1 (amended): for every user with a TOTP secret on file, `verify` accepts
a code matching the one-time-password algorithm seeded with the stored secret
at the current time step only (`pyotp`'s default verification window of 0),
and on acceptance sets `totp_enabled` to true. -/
theorem C1_verify_accepts_current_step (totp : String → Nat → String)
    (users : List User) (uid s : String) (tstep : Nat) (u : User)
    (hu : users.find? (fun v => v.id == uid) = some u)
    (hs : u.totp_secret = some s) (hne : s ≠ "") :
    (verify_2fa totp users uid (totp s tstep) tstep).2 =
      .ok "2FA enabled successfully" ∧
    ∃ u', (verify_2fa totp users uid (totp s tstep) tstep).1.find?
        (fun v => v.id == uid) = some u' ∧ u'.totp_enabled = true := by
  have hmiss : totpSecretMissing u = false := by
    simp [totpSecretMissing, hs, hne]
  have e : verify_2fa totp users uid (totp s tstep) tstep =
      (updateFirst (fun v => v.id == uid)
        (fun u => { u with totp_enabled := true }) users,
       .ok "2FA enabled successfully") := by
    simp only [verify_2fa]
    rw [hu]
    simp [hmiss, hs]
  rw [e]
  exact ⟨rfl,
    ⟨{ u with totp_enabled := true },
     find?_updateFirst (fun v => v.id == uid)
       (fun u => { u with totp_enabled := true }) (fun _ => rfl) users u hu,
     rfl⟩⟩

theorem C1_verify_accepts_current_step_witness :
    (verify_2fa demoTotp [demoUser2FA] "u1"
        (demoTotp "SECRETBASE32" 5) 5).2 = .ok "2FA enabled successfully" ∧
    ∃ u', (verify_2fa demoTotp [demoUser2FA] "u1"
        (demoTotp "SECRETBASE32" 5) 5).1.find?
          (fun v => v.id == "u1") = some u' ∧ u'.totp_enabled = true :=
  C1_verify_accepts_current_step demoTotp [demoUser2FA] "u1" "SECRETBASE32" 5
    demoUser2FA (by rfl) (by rfl) (by decide)

/-- Shared failure-path lemma: with no (or an empty) stored secret,
`verify_2fa` fails with 400 "2FA not setup" and returns the collection
unchanged. -/
theorem verify_2fa_not_setup (totp : String → Nat → String)
    (users : List User) (uid code : String) (tstep : Nat) (u : User)
    (hu : users.find? (fun v => v.id == uid) = some u)
    (hmiss : totpSecretMissing u = true) :
    verify_2fa totp users uid code tstep =
      (users, .error ⟨400, "2FA not setup"⟩) := by
  simp only [verify_2fa]
  rw [hu]
  simp [hmiss]

/-- Shared failure-path lemma: with a secret on file but a code matching
neither the current-step TOTP value nor any stored backup code, `verify_2fa`
fails with 400 "Invalid code" and returns the collection unchanged. -/
theorem verify_2fa_invalid_code (totp : String → Nat → String)
    (users : List User) (uid code : String) (tstep : Nat) (u : User)
    (hu : users.find? (fun v => v.id == uid) = some u)
    (hmiss : totpSecretMissing u = false)
    (hcode : code ≠ totp (u.totp_secret.getD "") tstep)
    (hmem : code ∉ u.backup_codes) :
    verify_2fa totp users uid code tstep =
      (users, .error ⟨400, "Invalid code"⟩) := by
  simp only [verify_2fa]
  rw [hu]
  simp [hmiss, hcode, hmem]

/-! ## C3: backup codes are single-use -/

/-- C3: each of the 8 backup codes returned by `setup_2fa` is usable exactly
once.  Assuming the code never matches the time-based TOTP check, the first
`verify_2fa` call with it succeeds, removes that code from the stored set and
sets `totp_enabled` to true; a repeated `verify_2fa` with the same
already-consumed code fails with 400 "Invalid code" and leaves the state
unchanged. -/
theorem C3_backup_code_single_use (totp : String → Nat → String)
    (users : List User) (uid secret code : String) (codes : List String)
    (t1 t2 : Nat) (u : User)
    (hu : users.find? (fun v => v.id == uid) = some u)
    (_hlen : codes.length = 8) (hcode : code ∈ codes) (hsec : secret ≠ "")
    (h1 : code ≠ totp secret t1) (h2 : code ≠ totp secret t2) :
    (verify_2fa totp (setup_2fa users uid secret codes).1 uid code t1).2 =
      .ok "2FA verified with backup code" ∧
    (∃ u',
      (verify_2fa totp (setup_2fa users uid secret codes).1 uid code
          t1).1.find? (fun v => v.id == uid) = some u' ∧
      u'.totp_enabled = true ∧ code ∉ u'.backup_codes) ∧
    verify_2fa totp
        (verify_2fa totp (setup_2fa users uid secret codes).1 uid code t1).1
        uid code t2 =
      ((verify_2fa totp (setup_2fa users uid secret codes).1 uid code t1).1,
       .error ⟨400, "Invalid code"⟩) := by
  have hu1 : (setup_2fa users uid secret codes).1.find?
      (fun v => v.id == uid) =
      some { u with totp_secret := some secret, backup_codes := codes } :=
    find?_updateFirst (fun v => v.id == uid)
      (fun u => { u with totp_secret := some secret, backup_codes := codes })
      (fun _ => rfl) users u hu
  have e1 : verify_2fa totp (setup_2fa users uid secret codes).1 uid code t1 =
      (updateFirst (fun v => v.id == uid)
        (fun v =>
          { v with backup_codes := v.backup_codes.filter (fun c => c != code),
                   totp_enabled := true })
        (setup_2fa users uid secret codes).1,
       .ok "2FA verified with backup code") := by
    simp only [verify_2fa]
    rw [hu1]
    simp [totpSecretMissing, hsec, h1, hcode]
  have hu2 : (verify_2fa totp (setup_2fa users uid secret codes).1 uid code
      t1).1.find? (fun v => v.id == uid) =
      some { u with totp_secret := some secret,
                    backup_codes := codes.filter (fun c => c != code),
                    totp_enabled := true } := by
    rw [e1]
    exact find?_updateFirst (fun v => v.id == uid)
      (fun v =>
        { v with backup_codes := v.backup_codes.filter (fun c => c != code),
                 totp_enabled := true })
      (fun _ => rfl) (setup_2fa users uid secret codes).1
      { u with totp_secret := some secret, backup_codes := codes } hu1
  have hnotmem : code ∉ codes.filter (fun c => c != code) := by
    simp [List.mem_filter]
  refine ⟨by rw [e1], ⟨_, hu2, rfl, hnotmem⟩, ?_⟩
  exact verify_2fa_invalid_code totp _ uid code t2 _ hu2
    (by simp [totpSecretMissing, hsec]) (by simpa using h2) hnotmem

theorem C3_backup_code_single_use_witness :
    (verify_2fa demoTotp
        (setup_2fa [demoUser2FA] "u1" "NEWSECRET"
          ["C1AAAAAA","C2AAAAAA","C3AAAAAA","C4AAAAAA",
           "C5AAAAAA","C6AAAAAA","C7AAAAAA","C8AAAAAA"]).1
        "u1" "C3AAAAAA" 11).2 = .ok "2FA verified with backup code" ∧
    (∃ u',
      (verify_2fa demoTotp
          (setup_2fa [demoUser2FA] "u1" "NEWSECRET"
            ["C1AAAAAA","C2AAAAAA","C3AAAAAA","C4AAAAAA",
             "C5AAAAAA","C6AAAAAA","C7AAAAAA","C8AAAAAA"]).1
          "u1" "C3AAAAAA" 11).1.find? (fun v => v.id == "u1") = some u' ∧
      u'.totp_enabled = true ∧ "C3AAAAAA" ∉ u'.backup_codes) ∧
    verify_2fa demoTotp
        (verify_2fa demoTotp
          (setup_2fa [demoUser2FA] "u1" "NEWSECRET"
            ["C1AAAAAA","C2AAAAAA","C3AAAAAA","C4AAAAAA",
             "C5AAAAAA","C6AAAAAA","C7AAAAAA","C8AAAAAA"]).1
          "u1" "C3AAAAAA" 11).1
        "u1" "C3AAAAAA" 12 =
      ((verify_2fa demoTotp
          (setup_2fa [demoUser2FA] "u1" "NEWSECRET"
            ["C1AAAAAA","C2AAAAAA","C3AAAAAA","C4AAAAAA",
             "C5AAAAAA","C6AAAAAA","C7AAAAAA","C8AAAAAA"]).1
          "u1" "C3AAAAAA" 11).1,
       .error ⟨400, "Invalid code"⟩) :=
  C3_backup_code_single_use demoTotp [demoUser2FA] "u1" "NEWSECRET"
    "C3AAAAAA"
    ["C1AAAAAA","C2AAAAAA","C3AAAAAA","C4AAAAAA",
     "C5AAAAAA","C6AAAAAA","C7AAAAAA","C8AAAAAA"]
    11 12 demoUser2FA (by rfl) (by rfl) (by decide) (by decide) (by decide)
    (by decide)

/-! ## C4: verify failure modes leave state unchanged -/

/-- C4: `verify_2fa` fails with 400 "2FA not setup" when the caller has no
TOTP secret on file (the Python truthiness test: `None` or an empty string),
and with 400 "Invalid code" when the code matches neither the current-step
TOTP check nor any stored backup code; in both failing cases the stored user
collection — hence `totp_secret`, `totp_enabled` and `backup_codes` of every
user — is returned unchanged. -/
theorem C4_verify_failures (totp : String → Nat → String) (users : List User)
    (uid code : String) (tstep : Nat) (u : User)
    (hu : users.find? (fun v => v.id == uid) = some u) :
    (totpSecretMissing u = true →
      verify_2fa totp users uid code tstep =
        (users, .error ⟨400, "2FA not setup"⟩)) ∧
    (totpSecretMissing u = false →
      code ≠ totp (u.totp_secret.getD "") tstep →
      code ∉ u.backup_codes →
      verify_2fa totp users uid code tstep =
        (users, .error ⟨400, "Invalid code"⟩)) := by
  constructor
  · intro hmiss
    exact verify_2fa_not_setup totp users uid code tstep u hu hmiss
  · intro hmiss hcode hmem
    exact verify_2fa_invalid_code totp users uid code tstep u hu hmiss
      hcode hmem

theorem C4_verify_failures_witness :
    (verify_2fa demoTotp [demoUser] "u1" "123456" 5 =
      ([demoUser], .error ⟨400, "2FA not setup"⟩)) ∧
    (verify_2fa demoTotp [demoUser2FA] "u1" "123456" 5 =
      ([demoUser2FA], .error ⟨400, "Invalid code"⟩)) :=
  ⟨(C4_verify_failures demoTotp [demoUser] "u1" "123456" 5 demoUser
      (by rfl)).1 (by rfl),
   (C4_verify_failures demoTotp [demoUser2FA] "u1" "123456" 5 demoUser2FA
      (by rfl)).2 (by rfl) (by decide) (by decide)⟩

/-! ## C6: registration conflicts and password hashing -/

/-- C6: `register` fails with the duplicate-identity error (400 "Email or
username already exists", the spec's `Conflict`) whenever a stored user
already has the requested email or the requested username — in particular a
second registration with the same email, or with the same username under a
different email, after a successful first one; otherwise it creates a user
whose stored password field is the bcrypt hash of the password, never the
plaintext. -/
theorem C6_register (hashPw : String → String) (users : List User)
    (email pw un nid e2 p2 un2 n2 : String) (now t2 : Nat) :
    ((∃ u ∈ users, u.email = email ∨ u.username = un) →
      register hashPw users email pw un nid now =
        .error ⟨400, "Email or username already exists"⟩) ∧
    (∀ users' usr,
      register hashPw users email pw un nid now = .ok (users', usr) →
      (register hashPw users' email p2 un2 n2 t2 =
        .error ⟨400, "Email or username already exists"⟩ ∧
       register hashPw users' e2 p2 un n2 t2 =
        .error ⟨400, "Email or username already exists"⟩)) ∧
    ((¬ ∃ u ∈ users, u.email = email ∨ u.username = un) →
      ∃ usr, register hashPw users email pw un nid now =
          .ok (users ++ [usr], usr) ∧
        usr.password_hash = hashPw pw ∧
        (hashPw pw ≠ pw → usr.password_hash ≠ pw)) := by
  have hany : (users.any
      (fun u => u.email == email || u.username == un) = true) ↔
      ∃ u ∈ users, u.email = email ∨ u.username = un := by
    simp [List.any_eq_true]
  refine ⟨?_, ?_, ?_⟩
  · intro h
    simp [register, hany.mpr h]
  · intro users' usr hok
    have hnc : users.any (fun u => u.email == email || u.username == un) =
        false := by
      cases hc : users.any (fun u => u.email == email || u.username == un)
      · rfl
      · simp [register, hc] at hok
    have husers' : users' =
        users ++ [{ id := nid, email := email, username := un,
                    password_hash := hashPw pw, created_at := now }] := by
      simp [register, hnc] at hok
      exact hok.1.symm
    constructor
    · have : ∃ u ∈ users', u.email = email ∨ u.username = un2 := by
        refine ⟨{ id := nid, email := email, username := un,
                  password_hash := hashPw pw, created_at := now },
          by simp [husers'], Or.inl rfl⟩
      simp [register, List.any_eq_true.mpr
        (by simpa using this : ∃ u ∈ users',
          (u.email == email || u.username == un2) = true)]
    · have : ∃ u ∈ users', u.email = e2 ∨ u.username = un := by
        refine ⟨{ id := nid, email := email, username := un,
                  password_hash := hashPw pw, created_at := now },
          by simp [husers'], Or.inr rfl⟩
      simp [register, List.any_eq_true.mpr
        (by simpa using this : ∃ u ∈ users',
          (u.email == e2 || u.username == un) = true)]
  · intro h
    have hnc : users.any (fun u => u.email == email || u.username == un) =
        false := by
      cases hc : users.any (fun u => u.email == email || u.username == un)
      · rfl
      · exact absurd (hany.mp hc) h
    refine ⟨{ id := nid, email := email, username := un,
              password_hash := hashPw pw, created_at := now },
      by simp [register, hnc], rfl, fun hne => hne⟩

theorem C6_register_witness :
    register (fun s => "$2b$" ++ s) [demoUser] "a@b.c" "pw" "bob" "u9" 5 =
      .error ⟨400, "Email or username already exists"⟩ ∧
    ∃ usr, register (fun s => "$2b$" ++ s) [demoUser] "b@b.c" "pw" "bob"
        "u9" 5 = .ok ([demoUser] ++ [usr], usr) ∧
      usr.password_hash = (fun s => "$2b$" ++ s) "pw" ∧
      ((fun s => "$2b$" ++ s) "pw" ≠ "pw" → usr.password_hash ≠ "pw") :=
  ⟨(C6_register (fun s => "$2b$" ++ s) [demoUser] "a@b.c" "pw" "bob" "u9"
      "x" "y" "z" "w" 5 6).1 (by decide),
   (C6_register (fun s => "$2b$" ++ s) [demoUser] "b@b.c" "pw" "bob" "u9"
      "x" "y" "z" "w" 5 6).2.2 (by decide)⟩

/-! ## C5: token issue / resolve round trip -/

/-- C5: an issued token encodes exactly the user id and email it was issued
with plus an expiry claim seven days out; decoding it inside the validity
window yields back exactly those claims; a token past its validity window is
rejected with 401 "Token expired"; and a token whose signature does not match
its claims (tampered either way) is rejected with 401 "Invalid token". -/
theorem C5_token_round_trip (sign : JwtPayload → String)
    (uid em : String) (now now' : Nat) (t : Jwt) :
    (create_access_token sign uid em now).payload =
      ⟨uid, em, now + 7 * 24 * 60 * 60⟩ ∧
    (now' < now + 7 * 24 * 60 * 60 →
      decode_token sign now' (create_access_token sign uid em now) =
        .ok ⟨uid, em, now + 7 * 24 * 60 * 60⟩) ∧
    (t.sig = sign t.payload → t.payload.exp ≤ now' →
      decode_token sign now' t = .error ⟨401, "Token expired"⟩) ∧
    (t.sig ≠ sign t.payload →
      decode_token sign now' t = .error ⟨401, "Invalid token"⟩) := by
  refine ⟨rfl, ?_, ?_, ?_⟩
  · intro hlt
    simp [decode_token, create_access_token]
    omega
  · intro hsig hexp
    simp [decode_token, hsig, hexp]
  · intro hsig
    simp [decode_token, hsig]

theorem C5_token_round_trip_witness :
    decode_token demoSign 100 (create_access_token demoSign "u1" "a@b.c" 0) =
      .ok ⟨"u1", "a@b.c", 604800⟩ ∧
    decode_token demoSign 604800
        (create_access_token demoSign "u1" "a@b.c" 0) =
      .error ⟨401, "Token expired"⟩ ∧
    decode_token demoSign 100
        ⟨⟨"u1", "a@b.c", 604800⟩, "tampered"⟩ =
      .error ⟨401, "Invalid token"⟩ :=
  ⟨(C5_token_round_trip demoSign "u1" "a@b.c" 0 100
      ⟨⟨"u1", "a@b.c", 604800⟩, "tampered"⟩).2.1 (by decide),
   (C5_token_round_trip demoSign "u1" "a@b.c" 0 604800
      (create_access_token demoSign "u1" "a@b.c" 0)).2.2.1 (by rfl)
      (by decide),
   (C5_token_round_trip demoSign "u1" "a@b.c" 0 100
      ⟨⟨"u1", "a@b.c", 604800⟩, "tampered"⟩).2.2.2 (by decide)⟩

/-! ## Base64 round-trip lemmas -/

theorem b64CharIndex_b64Char :
    ∀ n, n < 64 → b64CharIndex (b64Char n) = some n := by decide

theorem b64Char_ne_pad : ∀ n, n < 64 → b64Char n ≠ '=' := by decide

theorem bytesToSextets_lt : ∀ bs : List Nat, (∀ b ∈ bs, b < 256) →
    ∀ s ∈ bytesToSextets bs, s < 64
  | [], _ => by simp [bytesToSextets]
  | [a], h => by
    have ha := h a (by simp)
    simp [bytesToSextets]
    omega
  | [a, b], h => by
    have ha := h a (by simp)
    have hb := h b (by simp)
    simp [bytesToSextets]
    omega
  | a :: b :: c :: rest, h => by
    have ha := h a (by simp)
    have hb := h b (by simp)
    have hc := h c (by simp)
    have ih := bytesToSextets_lt rest (fun x hx => h x (by simp [hx]))
    intro s hs
    simp only [bytesToSextets, List.mem_cons] at hs
    rcases hs with rfl | rfl | rfl | rfl | hs
    · omega
    · omega
    · omega
    · omega
    · exact ih s hs

theorem bytesToSextets_length_mod4 : ∀ bs : List Nat,
    (bytesToSextets bs).length % 4 ≠ 1
  | [] => by simp [bytesToSextets]
  | [_] => by simp [bytesToSextets]
  | [_, _] => by simp [bytesToSextets]
  | _ :: _ :: _ :: rest => by
    have ih := bytesToSextets_length_mod4 rest
    simp only [bytesToSextets, List.length_cons]
    omega

theorem bytesToSextets_ne_nil :
    ∀ bs : List Nat, bs ≠ [] → bytesToSextets bs ≠ []
  | [], h => absurd rfl h
  | [_], _ => by simp [bytesToSextets]
  | [_, _], _ => by simp [bytesToSextets]
  | _ :: _ :: _ :: _, _ => by simp [bytesToSextets]

theorem sextetsToBytes_bytesToSextets : ∀ bs : List Nat,
    (∀ b ∈ bs, b < 256) → sextetsToBytes (bytesToSextets bs) = bs
  | [], _ => rfl
  | [a], h => by
    have ha := h a (by simp)
    simp [bytesToSextets, sextetsToBytes]
    omega
  | [a, b], h => by
    have ha := h a (by simp)
    have hb := h b (by simp)
    simp [bytesToSextets, sextetsToBytes]
    constructor <;> omega
  | a :: b :: c :: rest, h => by
    have ha := h a (by simp)
    have hb := h b (by simp)
    have hc := h c (by simp)
    have ih := sextetsToBytes_bytesToSextets rest
      (fun x hx => h x (by simp [hx]))
    simp [bytesToSextets, sextetsToBytes, ih]
    refine ⟨?_, ?_, ?_⟩ <;> omega

theorem b64DecodeDigits_map_b64Char : ∀ sx : List Nat,
    (∀ s ∈ sx, s < 64) → b64DecodeDigits (sx.map b64Char) = some sx
  | [], _ => rfl
  | s :: rest, h => by
    have hs := b64CharIndex_b64Char s (h s (by simp))
    have ih := b64DecodeDigits_map_b64Char rest
      (fun x hx => h x (by simp [hx]))
    simp [b64DecodeDigits, hs, ih]

theorem takeWhile_all_append (p : Char → Bool) (k : Nat) (l : List Char)
    (hl : ∀ c ∈ l, p c = true) (hpad : p '=' = false) :
    (l ++ List.replicate k '=').takeWhile p = l := by
  induction l with
  | nil =>
    cases k with
    | zero => rfl
    | succ n => simp [List.replicate_succ, List.takeWhile_cons, hpad]
  | cons x xs ih =>
    simp [List.takeWhile_cons, hl x (by simp),
      ih (fun c hc => hl c (by simp [hc]))]

/-- Round trip of the base64 codec on any byte string: exactly the path a
payload takes through `upload_backup`'s decode and `download_backup`'s
re-encode. -/
theorem b64decode_b64encode (bs : List Nat) (h : ∀ b ∈ bs, b < 256) :
    b64decode (b64encode bs) = some bs := by
  have hlt := bytesToSextets_lt bs h
  have hne : ∀ c ∈ (bytesToSextets bs).map b64Char, c ≠ '=' := by
    intro c hc
    obtain ⟨s, hs, rfl⟩ := List.mem_map.mp hc
    exact b64Char_ne_pad s (hlt s hs)
  have htw := takeWhile_all_append (fun c => c ≠ '=')
    ((4 - (bytesToSextets bs).length % 4) % 4)
    ((bytesToSextets bs).map b64Char)
    (fun c hc => by simpa using hne c hc) (by simp)
  have hmapM := b64DecodeDigits_map_b64Char (bytesToSextets bs) hlt
  have hmod := bytesToSextets_length_mod4 bs
  have hrt := sextetsToBytes_bytesToSextets bs h
  have hdata : (b64encode bs).data =
      (bytesToSextets bs).map b64Char ++
        List.replicate ((4 - (bytesToSextets bs).length % 4) % 4) '=' := rfl
  have hlen : (b64encode bs).data.length % 4 = 0 := by
    rw [hdata]
    simp only [List.length_append, List.length_map, List.length_replicate]
    omega
  rw [b64decode, if_neg (by simpa using hlen), hdata, htw, hmapM]
  simp [hmod, hrt]

theorem b64encode_ne_empty (bs : List Nat) (h : bs ≠ []) :
    b64encode bs ≠ "" := by
  intro hcontra
  have hdata : (bytesToSextets bs).map b64Char ++
      List.replicate ((4 - (bytesToSextets bs).length % 4) % 4) '=' =
      ([] : List Char) := congrArg String.data hcontra
  have hnil : (bytesToSextets bs).map b64Char = [] :=
    (List.append_eq_nil.mp hdata).1
  exact bytesToSextets_ne_nil bs h (List.map_eq_nil_iff.mp hnil)

/-- `find_one` over an extended collection: when nothing in the old records
matches, the lookup falls through to the appended ones. -/
theorem find?_append_none {α : Type} (p : α → Bool) :
    ∀ (l1 l2 : List α), l1.find? p = none →
      (l1 ++ l2).find? p = l2.find? p
  | [], _, _ => rfl
  | x :: rest, l2, h => by
    have hx : p x = false := by
      cases hpx : p x
      · rfl
      · simp [List.find?_cons, hpx] at h
    have hrest : rest.find? p = none := by
      simpa [List.find?_cons, hx] using h
    simp [List.find?_cons, hx, find?_append_none p rest l2 hrest]

/-! ## C2: upload/download round trip for provider "local" -/

/-- C2: uploading a base64-encoded byte payload with provider "local" and then
downloading the returned backup id as the same user yields bytes identical to
the original payload, together with the original filename and creation
timestamp.  The hypotheses say the payload is a byte string, the Fernet cipher
round-trips on it and produces a nonempty ciphertext of bytes (true of the
real primitive, whose tokens are at least 57 bytes), and the generated backup
id is fresh. -/
theorem C2_upload_download_roundtrip (fernet : Cipher)
    (backups : List BackupMetadata) (uid fn newId : String)
    (payload : List Nat) (now : Nat)
    (hbytes : ∀ b ∈ payload, b < 256)
    (hct : ∀ b ∈ fernet.enc payload, b < 256)
    (hctne : fernet.enc payload ≠ [])
    (hdec : fernet.dec (fernet.enc payload) = payload)
    (hfresh : backups.find? (fun b => b.id == newId && b.user_id == uid) =
      none) :
    ∃ backups',
      upload_backup fernet backups uid fn (b64encode payload) "local" newId
        now = .ok (backups', newId) ∧
      ∃ r, download_backup fernet backups' uid newId = .ok r ∧
        r.filename = fn ∧ r.created_at = now ∧
        b64decode r.data = some payload := by
  have hdec1 := b64decode_b64encode payload hbytes
  have hdec2 := b64decode_b64encode (fernet.enc payload) hct
  have hne := b64encode_ne_empty (fernet.enc payload) hctne
  refine ⟨backups ++ [⟨newId, uid, fn, "local",
    some (b64encode (fernet.enc payload)), none, now⟩], ?_, ?_⟩
  · simp [upload_backup, hdec1]
  · have hfind : (backups ++ [(⟨newId, uid, fn, "local",
        some (b64encode (fernet.enc payload)), none, now⟩ :
          BackupMetadata)]).find?
        (fun b => b.id == newId && b.user_id == uid) =
        some ⟨newId, uid, fn, "local",
          some (b64encode (fernet.enc payload)), none, now⟩ := by
      rw [find?_append_none _ _ _ hfresh]
      simp
    refine ⟨⟨fn, b64encode (fernet.dec (fernet.enc payload)), now⟩,
      ?_, rfl, rfl, ?_⟩
    · simp only [download_backup]
      rw [hfind]
      simp [hne, hdec2]
    · rw [hdec]
      exact hdec1

theorem C2_upload_download_roundtrip_witness :
    ∃ backups',
      upload_backup demoCipher [] "u1" "notes.txt"
        (b64encode [104, 101, 108, 108, 111]) "local" "b9" 42 =
        .ok (backups', "b9") ∧
      ∃ r, download_backup demoCipher backups' "u1" "b9" = .ok r ∧
        r.filename = "notes.txt" ∧ r.created_at = 42 ∧
        b64decode r.data = some [104, 101, 108, 108, 111] :=
  C2_upload_download_roundtrip demoCipher [] "u1" "notes.txt" "b9"
    [104, 101, 108, 108, 111] 42 (by decide) (by decide) (by decide)
    (by rfl) (by rfl)

/-! ## C7: listing backups -/

/-- C7 counterexample: the claim says `list_backups` returns ALL of the
caller's backup metadata records, but `.to_list(100)` truncates the cursor:
with 101 stored backups owned by the caller, only 100 records are returned. -/
theorem C7_counterexample :
    (list_backups db101 "u1").length = 100 ∧
    (db101.filter (fun b => b.user_id == "u1")).length = 101 := by
  have hperm := List.mergeSort_perm
    ((db101.filter (fun b => b.user_id == "u1")).map stripPayload)
    (fun a b => b.created_at ≤ a.created_at)
  have hlen : ((db101.filter (fun b => b.user_id == "u1")).map
      stripPayload).length = 101 := by
    rw [List.length_map]
    rfl
  constructor
  · simp only [list_backups]
    rw [List.length_take, hperm.length_eq, hlen]
    rfl
  · rfl

/-- C7 (amended): `list_backups` returns only the caller's records — at most
the first 100 of them, by `.to_list(100)` — with the inline encrypted payload
stripped from every returned record, ordered newest first by creation
timestamp; and whenever the caller owns at most 100 backups it returns all of
them (as a permutation of the caller's stripped records in particular,
together with the ordering, a complete newest-first listing). -/
theorem C7_list_backups (backups : List BackupMetadata) (uid : String) :
    (∀ b ∈ list_backups backups uid,
      b.user_id = uid ∧ b.encrypted_data = none) ∧
    (list_backups backups uid).Pairwise
      (fun a b => b.created_at ≤ a.created_at) ∧
    ((backups.filter (fun b => b.user_id == uid)).length ≤ 100 →
      (list_backups backups uid).Perm
        ((backups.filter (fun b => b.user_id == uid)).map stripPayload)) := by
  have hperm := List.mergeSort_perm
    ((backups.filter (fun b => b.user_id == uid)).map stripPayload)
    (fun a b => b.created_at ≤ a.created_at)
  refine ⟨?_, ?_, ?_⟩
  · intro b hb
    have hb1 : b ∈ ((backups.filter (fun b => b.user_id == uid)).map
        stripPayload).mergeSort (fun a b => b.created_at ≤ a.created_at) :=
      List.mem_of_mem_take hb
    have hb2 : b ∈ (backups.filter (fun b => b.user_id == uid)).map
        stripPayload := hperm.mem_iff.mp hb1
    obtain ⟨b', hb', rfl⟩ := List.mem_map.mp hb2
    have hp := List.of_mem_filter hb'
    exact ⟨by simpa [stripPayload] using hp, rfl⟩
  · have hsorted := @List.sorted_mergeSort BackupMetadata
      (fun a b => b.created_at ≤ a.created_at)
      (fun a b c hab hbc => by
        simp only [decide_eq_true_eq] at hab hbc ⊢
        omega)
      (fun a b => by
        simp only [Bool.or_eq_true, decide_eq_true_eq]
        omega)
      ((backups.filter (fun b => b.user_id == uid)).map stripPayload)
    have hsorted' : (((backups.filter (fun b => b.user_id == uid)).map
        stripPayload).mergeSort
          (fun a b => b.created_at ≤ a.created_at)).Pairwise
        (fun a b => b.created_at ≤ a.created_at) :=
      hsorted.imp (fun h => by simpa using h)
    exact hsorted'.sublist (List.take_sublist _ _)
  · intro hle
    have h1 : (((backups.filter (fun b => b.user_id == uid)).map
        stripPayload).mergeSort
          (fun a b => b.created_at ≤ a.created_at)).length ≤ 100 := by
      rw [hperm.length_eq, List.length_map]
      exact hle
    simp only [list_backups]
    rw [List.take_of_length_le h1]
    exact hperm

theorem C7_list_backups_witness :
    (∀ b ∈ list_backups demoBackups "u1",
      b.user_id = "u1" ∧ b.encrypted_data = none) ∧
    (list_backups demoBackups "u1").Perm
      ((demoBackups.filter (fun b => b.user_id == "u1")).map stripPayload) :=
  ⟨(C7_list_backups demoBackups "u1").1,
   (C7_list_backups demoBackups "u1").2.2 (by decide)⟩
